import Mathlib

/-!
# Verification of the captcha-api solving engine

Shallow embedding of `src/solver.ts` (class `CaptchaSolver`) from the
ChrisRodStar/captcha-api repository, together with theorems settling the
behavioural claims about it.

Numbers that are JavaScript doubles (scores, confidences, elapsed times)
are modelled as rationals; the initial `Infinity` of `minSolveTimeMs` is
modelled as `⊤` in `WithTop ℚ`.  The effects of the outside world on one
solve attempt (whether `sharp` preprocessing produced a tensor, what the
ONNX session returned or whether it threw, and the elapsed wall-clock
time) are supplied by an explicit environment value, so each method of
the class becomes a pure function from configuration, state and
environment to result and next state.
-/

namespace CaptchaApi

/-- The `SolveResult` interface.  `solveTimeMs` is an `Option` because the
pre-initialization branch of `solveBatch` builds its result objects
without that field (in JavaScript the field is then `undefined`);
`none` models the absent field. -/
structure SolveResult where
  code : Option String
  success : Bool
  confidence : ℚ
  solveTimeMs : Option ℚ
  deriving DecidableEq

/-- The `CaptchaSolverStats` interface.  `minSolveTimeMs` starts at
`Infinity`, modelled by `⊤ : WithTop ℚ`. -/
structure CaptchaSolverStats where
  totalAttempts : ℕ
  successfulDecodes : ℕ
  failures : ℕ
  averageConfidence : ℚ
  averageSolveTimeMs : ℚ
  minSolveTimeMs : WithTop ℚ
  maxSolveTimeMs : ℚ
  deriving DecidableEq

/-- The initial value of `this.stats` (solver.ts lines 524-532). -/
def initStats : CaptchaSolverStats :=
  { totalAttempts := 0
    successfulDecodes := 0
    failures := 0
    averageConfidence := 0
    averageSolveTimeMs := 0
    minSolveTimeMs := ⊤
    maxSolveTimeMs := 0 }

/-- The immutable per-instance configuration cached during `initialize`:
`idx_to_char` is the metadata map from stringified class index to
character (keys modelled by their numeric value), `validCharacters` the
cached charset. -/
structure EngineConfig where
  idx_to_char : List (ℕ × String)
  validCharacters : List Char

/-- The mutable part of the solver that the solve methods read and
write: the `isInitialized` flag and the statistics record. -/
structure EngineState where
  isInitialized : Bool
  stats : CaptchaSolverStats
  deriving DecidableEq

/-- Outcome of `this.session.run` on one tensor: either the per-position
score vectors (`outputs[outputNames[pos]]` for `pos = 0..3`) or a raised
exception. -/
inductive InferOutcome where
  | ok (outputs : Fin 4 → List ℚ)
  | raise

/-- What the outside world does for one solve attempt: whether
`preprocessImage` yields a tensor (it catches its own errors and returns
`null` on any decode/resize failure), what inference does with the
tensor, and the elapsed time `performance.now() - startTime` observed at
whichever measurement point the attempt reaches. -/
structure SolveEnv where
  preprocessOk : Bool
  infer : InferOutcome
  time : ℚ

/-- JavaScript lookup `idxToChar[maxIdx.toString()]` as used by
`predictedText += idxToChar[...]`: a missing key yields `undefined`,
which string concatenation coerces to the text "undefined". -/
def jsLookupStr (m : List (ℕ × String)) (k : ℕ) : String :=
  (m.lookup k).getD "undefined"

/-- The scan `for (let i = 1; i < charProbs.length; i++) if (charProbs[i] >
maxProb) ...` with accumulator `(maxIdx, maxProb)`; `i` is the index of
the head of the remaining list.  Only a strictly greater score replaces
the accumulator, so ties keep the earlier index. -/
def argmaxFrom (i : ℕ) (acc : ℕ × ℚ) : List ℚ → ℕ × ℚ
  | [] => acc
  | p :: rest => argmaxFrom (i + 1) (if acc.2 < p then (i, p) else acc) rest

/-- `let maxIdx = 0; let maxProb = charProbs[0]!` followed by the scan
from index 1.  A real model output vector has one score per class and is
never empty; the `[]` case only keeps the function total. -/
def jsArgmax : List ℚ → ℕ × ℚ
  | [] => (0, 0)
  | p :: rest => argmaxFrom 1 (0, p) rest

/-- The decode loop shared by `solveCaptcha` and `solveBatch`: for
`pos = 0..3`, append the character selected for that position and push
its maximum score.  Returns (`predictedText`, `confidences`). -/
def decodeLoop (idx2char : List (ℕ × String)) (outputs : Fin 4 → List ℚ) :
    String × List ℚ :=
  ([0, 1, 2, 3] : List (Fin 4)).foldl
    (fun acc pos =>
      ((acc.1 ++ jsLookupStr idx2char (jsArgmax (outputs pos)).1),
        acc.2 ++ [(jsArgmax (outputs pos)).2]))
    ("", [])

/-- `predictedText.length === 4 && [...predictedText].every((c) =>
this.validCharacters.has(c))`. -/
def isValidCode (validCharacters : List Char) (text : String) : Bool :=
  text.length == 4 && text.toList.all (fun c => validCharacters.contains c)

/-- `this.stats.totalAttempts++`, the first statement of the Ready path
of `solveCaptcha` and of each batch item task.  The state it produces is
the one `getStats` observes while the attempt is suspended at one of the
`await`s that follow. -/
def startAttempt (st : EngineState) : EngineState :=
  { st with stats := { st.stats with totalAttempts := st.stats.totalAttempts + 1 } }

/-- `this.stats.failures++`. -/
def incFailures (st : EngineState) : EngineState :=
  { st with stats := { st.stats with failures := st.stats.failures + 1 } }

/-- The timing-stats update block (solver.ts lines 810-821 and 934-945):
running mean over `totalAttempts`, running min against the `Infinity`
start, and running max. -/
def updateTiming (s : CaptchaSolverStats) (t : ℚ) : CaptchaSolverStats :=
  { s with
    averageSolveTimeMs :=
      (s.averageSolveTimeMs * ((s.totalAttempts : ℚ) - 1) + t) /
        (s.totalAttempts : ℚ)
    minSolveTimeMs := min s.minSolveTimeMs (t : WithTop ℚ)
    maxSolveTimeMs := max s.maxSolveTimeMs t }

/-- `this.stats.successfulDecodes++` followed by the incremental
running-mean update of `averageConfidence`; the divisor is the
post-increment count. -/
def recordSuccess (s : CaptchaSolverStats) (x : ℚ) : CaptchaSolverStats :=
  { s with
    successfulDecodes := s.successfulDecodes + 1
    averageConfidence :=
      (s.averageConfidence * (((s.successfulDecodes + 1 : ℕ) : ℚ) - 1) + x) /
        ((s.successfulDecodes + 1 : ℕ) : ℚ) }

/-- The decode/validate/record block that appears verbatim both in
`solveCaptcha` (lines 772-858) and in each `solveBatch` item task
(lines 897-971): run inference, decode the 4 positions, average the
selected maxima, validate, update the timing stats, then record success
or failure.  The exception handler (`catch`) increments `failures` and
returns the negative result without touching the timing stats. -/
def runInference (cfg : EngineConfig) (st : EngineState) (inf : InferOutcome)
    (t : ℚ) : SolveResult × EngineState :=
  match inf with
  | .raise =>
      ({ code := none, success := false, confidence := 0, solveTimeMs := some t },
        incFailures st)
  | .ok outputs =>
      let dec := decodeLoop cfg.idx_to_char outputs
      let avgConfidence := dec.2.sum / (dec.2.length : ℚ)
      let valid := isValidCode cfg.validCharacters dec.1
      let st1 : EngineState := { st with stats := updateTiming st.stats t }
      if valid then
        ({ code := some dec.1, success := true, confidence := avgConfidence,
            solveTimeMs := some t },
          { st1 with stats := recordSuccess st1.stats avgConfidence })
      else
        ({ code := none, success := false, confidence := 0, solveTimeMs := some t },
          incFailures st1)

/-- `solveCaptcha` (solver.ts lines 743-871): pre-initialization guard
returning a zero-time failure without touching the stats;
`totalAttempts++`; preprocessing, whose failure increments `failures`
and returns the negative result with the elapsed time but without
updating the timing aggregates; then the shared inference block. -/
def solveCaptcha (cfg : EngineConfig) (st : EngineState) (env : SolveEnv) :
    SolveResult × EngineState :=
  if st.isInitialized then
    let stMid := startAttempt st
    if env.preprocessOk then
      runInference cfg stMid env.infer env.time
    else
      ({ code := none, success := false, confidence := 0,
          solveTimeMs := some env.time },
        incFailures stMid)
  else
    ({ code := none, success := false, confidence := 0, solveTimeMs := some 0 },
      st)

/-- `preprocessImages` (solver.ts lines 735-741): preprocess all images
in parallel and keep only the non-`null` tensors — an image whose
preprocessing failed is dropped from the list.  Each surviving
environment value stands for the tensor of the corresponding image. -/
def preprocessImages (envs : List SolveEnv) : List SolveEnv :=
  envs.filter (fun e => e.preprocessOk)

/-- One `solveBatch` item task (lines 892-983): `totalAttempts++` then the
shared inference block; preprocessing already happened during
`preprocessImages`. -/
def solveBatchItem (cfg : EngineConfig) (st : EngineState) (env : SolveEnv) :
    SolveResult × EngineState :=
  runInference cfg (startAttempt st) env.infer env.time

/-- The `Promise.all` over the item tasks, modelled sequentially.  The
per-item results do not read the shared stats, and each completed item
adds one to `totalAttempts` and one to exactly one of
`successfulDecodes`/`failures`, so the results list and those counter
totals are the same under every interleaving of the real concurrent
tasks. -/
def runBatchItems (cfg : EngineConfig) (st : EngineState) :
    List SolveEnv → List SolveResult × EngineState
  | [] => ([], st)
  | e :: es =>
      let r := solveBatchItem cfg st e
      let rs := runBatchItems cfg r.2 es
      (r.1 :: rs.1, rs.2)

/-- `solveBatch` (solver.ts lines 874-988).  The pre-initialization
branch maps every input to a failure object built without a
`solveTimeMs` field.  Otherwise `preprocessImages` filters out the
images whose preprocessing failed and only the surviving tensors are
processed. -/
def solveBatch (cfg : EngineConfig) (st : EngineState) (envs : List SolveEnv) :
    List SolveResult × EngineState :=
  if st.isInitialized then
    runBatchItems cfg st (preprocessImages envs)
  else
    (envs.map (fun _ =>
        { code := none, success := false, confidence := 0, solveTimeMs := none }),
      st)

/-- `getStats`: snapshot of the counters record. -/
def getStats (st : EngineState) : CaptchaSolverStats := st.stats

/-- A complete engine operation: one `solveCaptcha` call or one
`solveBatch` call, run to completion. -/
inductive SolverOp where
  | single (env : SolveEnv)
  | batch (envs : List SolveEnv)

/-- State after one completed operation. -/
def runOp (cfg : EngineConfig) (st : EngineState) : SolverOp → EngineState
  | .single env => (solveCaptcha cfg st env).2
  | .batch envs => (solveBatch cfg st envs).2

/-- State after a sequence of completed operations. -/
def runOps (cfg : EngineConfig) : EngineState → List SolverOp → EngineState
  | st, [] => st
  | st, op :: ops => runOps cfg (runOp cfg st op) ops

/-- Number of solve attempts an operation starts: a `solveCaptcha` call
starts one; a `solveBatch` call starts one per image that survives
preprocessing. -/
def opAttempts : SolverOp → ℕ
  | .single _ => 1
  | .batch envs => (preprocessImages envs).length

/-- A sequence of completed `solveCaptcha` calls, collecting results. -/
def runSolves (cfg : EngineConfig) (st : EngineState) :
    List SolveEnv → List SolveResult × EngineState
  | [] => ([], st)
  | e :: es =>
      let r := solveCaptcha cfg st e
      let rs := runSolves cfg r.2 es
      (r.1 :: rs.1, rs.2)

/-- The engine in the Ready state, directly after a successful
`initialize`: flag set, statistics at their initial values. -/
def freshReady : EngineState := { isInitialized := true, stats := initStats }

/-- The engine before `initialize` has completed. -/
def uninit : EngineState := { isInitialized := false, stats := initStats }

/-- `minSolveTimeMs ≤ averageSolveTimeMs ≤ maxSolveTimeMs`, the ordering
the specification asserts for the timing aggregates. -/
def timingInv (s : CaptchaSolverStats) : Prop :=
  s.minSolveTimeMs ≤ (s.averageSolveTimeMs : WithTop ℚ) ∧
    s.averageSolveTimeMs ≤ s.maxSolveTimeMs

/-! ## Backend selection (`initialize`, solver.ts lines 534-656) -/

/-- The `GpuStatus` interface. -/
structure GpuStatus where
  enabled : Bool
  available : Bool
  provider : Option String
  availableProviders : List String
  requestedProviders : List String
  deriving DecidableEq

/-- The accelerated-backend set (`gpuProviders`, solver.ts line 625). -/
def gpuProviders : List String := ["cuda", "dml", "tensorrt", "rocm"]

/-- The environment of one `initialize` call: the `USE_GPU` flag, the
platform, whether `InferenceSession.create` with the GPU preference list
succeeds, and the execution providers the environment genuinely has.
The current code never queries the last field; the specification-side
model below uses it. -/
structure InitEnv where
  useGpu : Bool
  isWin32 : Bool
  gpuSessionOk : Bool
  envProviders : List String

/-- The final value of the local `executionProviders` variable: the
platform preference list when GPU is in use and its session was created,
`["cpu"]` after the GPU fallback or in CPU-only mode. -/
def requestedProvidersFor (env : InitEnv) : List String :=
  if env.useGpu then
    if env.gpuSessionOk then
      if env.isWin32 then ["dml", "cuda", "cpu"] else ["cuda", "cpu"]
    else ["cpu"]
  else ["cpu"]

/-- The `gpuStatus` record computed by `initialize` (solver.ts lines
534-656): when the GPU-list session was created, the first requested
provider is assumed active ("Assume GPU provider is being used since
session creation succeeded") and `available` is set from membership in
`gpuProviders`; otherwise the provider is "cpu".  Both
`availableProviders` and `requestedProviders` are set to the requested
list ("Approximate - we don't have exact API").  The final fix-up sets
`enabled` to `useGpu` whenever it is still `false`. -/
def initGpuStatus (env : InitEnv) : GpuStatus :=
  let requested := requestedProvidersFor env
  let sessionCreated := env.useGpu && env.gpuSessionOk
  let pa : Option String × Bool :=
    if sessionCreated then
      let firstRequested := requested.headD "cpu"
      if gpuProviders.contains firstRequested then (some firstRequested, true)
      else (some "cpu", false)
    else (some "cpu", false)
  let enabled0 := false
  let enabled := if enabled0 == false && env.useGpu then env.useGpu else enabled0
  { enabled := enabled
    available := pa.2
    provider := pa.1
    availableProviders := requested
    requestedProviders := requested }

/-- The backend status as the specification describes it, for comparison
with `initGpuStatus`: the active provider is the first entry of the
requested list that the environment reports as available, or "cpu" if
none match; `availableProviders` is the environment's report; `available`
holds exactly when the active provider is in the accelerated set. -/
def specGpuStatus (env : InitEnv) : GpuStatus :=
  let requested := requestedProvidersFor env
  let active := (requested.find? (fun p => env.envProviders.contains p)).getD "cpu"
  { enabled := env.useGpu
    available := gpuProviders.contains active
    provider := some active
    availableProviders := env.envProviders
    requestedProviders := requested }

/-! ## Concrete fixtures used by counterexamples and witnesses -/

/-- A one-character model: class 0 decodes to "a", charset `{a}`. -/
def cfg0 : EngineConfig := { idx_to_char := [(0, "a")], validCharacters := ['a'] }

/-- Output scores: a single class with probability 1 at every position. -/
def out1 : Fin 4 → List ℚ := fun _ => [1]

/-- Output scores: a single class with score 2 (a logit-like value above
1) at every position. -/
def out2 : Fin 4 → List ℚ := fun _ => [2]

/-- An attempt whose preprocessing and inference succeed instantly. -/
def envOk : SolveEnv := { preprocessOk := true, infer := .ok out1, time := 0 }

/-- An attempt whose preprocessing and inference succeed after 10 ms. -/
def envOk10 : SolveEnv := { preprocessOk := true, infer := .ok out1, time := 10 }

/-- An attempt whose preprocessing fails (corrupt image bytes). -/
def envPre : SolveEnv := { preprocessOk := false, infer := .raise, time := 0 }

/-- An attempt whose preprocessing fails after 5 ms. -/
def envPre5 : SolveEnv := { preprocessOk := false, infer := .raise, time := 5 }

/-- An attempt with out-of-range scores. -/
def envBig : SolveEnv := { preprocessOk := true, infer := .ok out2, time := 0 }

/-- GPU requested on Linux, session construction succeeds, but the
environment actually has only the CPU provider. -/
def envGpu : InitEnv :=
  { useGpu := true, isWin32 := false, gpuSessionOk := true, envProviders := ["cpu"] }

/-! ## Theorems -/

/-- Invariant of the argmax scan: the final score bounds the accumulator
score and every remaining score; the result is either the untouched
accumulator or the first strictly-greater entry of the remainder (at
offset `k` from position `i`), with everything before it strictly
below the final score. -/
theorem argmaxFrom_spec (rest : List ℚ) : ∀ (i a : ℕ) (m : ℚ),
    m ≤ (argmaxFrom i (a, m) rest).2 ∧
      (∀ q ∈ rest, q ≤ (argmaxFrom i (a, m) rest).2) ∧
      (argmaxFrom i (a, m) rest = (a, m) ∨
        ∃ k, k < rest.length ∧ (argmaxFrom i (a, m) rest).1 = i + k ∧
          rest.getD k 0 = (argmaxFrom i (a, m) rest).2 ∧
          m < (argmaxFrom i (a, m) rest).2 ∧
          ∀ j, j < k → rest.getD j 0 < (argmaxFrom i (a, m) rest).2) := by
  induction rest with
  | nil => exact fun i a m => ⟨le_refl m, by simp, Or.inl rfl⟩
  | cons p rest ih =>
    intro i a m
    by_cases hp : m < p
    · have hstep : argmaxFrom i (a, m) (p :: rest) = argmaxFrom (i + 1) (i, p) rest := by
        simp [argmaxFrom, hp]
      obtain ⟨h1, h2, h3⟩ := ih (i + 1) i p
      rw [hstep]
      refine ⟨le_trans (le_of_lt hp) h1, ?_, ?_⟩
      · intro q hq
        rcases List.mem_cons.mp hq with hq | hq
        · exact hq ▸ h1
        · exact h2 q hq
      · right
        rcases h3 with h3 | ⟨k, hk, hidx, hget, hlt, hfirst⟩
        · refine ⟨0, by simp, ?_, ?_, ?_, ?_⟩
          · rw [h3]; simp
          · rw [h3]; simp
          · rw [h3]; exact hp
          · intro j hj; exact absurd hj (Nat.not_lt_zero j)
        · refine ⟨k + 1, by simpa using hk, ?_, ?_, ?_, ?_⟩
          · rw [hidx]; omega
          · simpa using hget
          · exact lt_trans hp hlt
          · intro j hj
            cases j with
            | zero => simpa using hlt
            | succ j => simpa using hfirst j (by omega)
    · have hstep : argmaxFrom i (a, m) (p :: rest) = argmaxFrom (i + 1) (a, m) rest := by
        simp [argmaxFrom, hp]
      obtain ⟨h1, h2, h3⟩ := ih (i + 1) a m
      rw [hstep]
      refine ⟨h1, ?_, ?_⟩
      · intro q hq
        rcases List.mem_cons.mp hq with hq | hq
        · exact hq ▸ le_trans (not_lt.mp hp) h1
        · exact h2 q hq
      · rcases h3 with h3 | ⟨k, hk, hidx, hget, hlt, hfirst⟩
        · exact Or.inl h3
        · right
          refine ⟨k + 1, by simpa using hk, ?_, ?_, hlt, ?_⟩
          · rw [hidx]; omega
          · simpa using hget
          · intro j hj
            cases j with
            | zero => simpa using lt_of_le_of_lt (not_lt.mp hp) hlt
            | succ j => simpa using hfirst j (by omega)

/-- The decoder's per-position selection: on a non-empty score vector,
`jsArgmax` returns an in-range index whose entry is the selected score,
that score is the maximum of the vector, and every entry before the
index is strictly below it — the first occurrence wins ties. -/
theorem jsArgmax_spec (probs : List ℚ) (h : probs ≠ []) :
    (jsArgmax probs).1 < probs.length ∧
      probs.getD (jsArgmax probs).1 0 = (jsArgmax probs).2 ∧
      (∀ q ∈ probs, q ≤ (jsArgmax probs).2) ∧
      ∀ j, j < (jsArgmax probs).1 → probs.getD j 0 < (jsArgmax probs).2 := by
  match probs with
  | [] => exact absurd rfl h
  | p :: rest =>
    obtain ⟨h1, h2, h3⟩ := argmaxFrom_spec rest 1 0 p
    have hj : jsArgmax (p :: rest) = argmaxFrom 1 (0, p) rest := rfl
    rw [hj]
    rcases h3 with h3 | ⟨k, hk, hidx, hget, hlt, hfirst⟩
    · rw [h3] at h1 h2 ⊢
      refine ⟨by simp, by simp, ?_, ?_⟩
      · intro q hq
        rcases List.mem_cons.mp hq with hq | hq
        · exact hq ▸ h1
        · exact h2 q hq
      · intro j hj
        exact absurd hj (Nat.not_lt_zero j)
    · have hkk : 1 + k = k + 1 := Nat.add_comm 1 k
      refine ⟨?_, ?_, ?_, ?_⟩
      · rw [hidx, hkk]; simpa using hk
      · rw [hidx, hkk]; simpa using hget
      · intro q hq
        rcases List.mem_cons.mp hq with hq | hq
        · rw [hq]; exact le_of_lt hlt
        · exact h2 q hq
      · intro j hj
        cases j with
        | zero => simpa using hlt
        | succ j =>
            rw [hidx, hkk] at hj
            simpa using hfirst j (by omega)

/-- The selected score of a non-empty vector is one of its entries. -/
theorem jsArgmax_mem (probs : List ℚ) (h : probs ≠ []) :
    (jsArgmax probs).2 ∈ probs := by
  obtain ⟨h1, h2, _, _⟩ := jsArgmax_spec probs h
  rw [← h2, List.getD_eq_getElem _ _ h1]
  exact List.getElem_mem h1

/-- Unrolling the 4-position decode loop. -/
theorem decodeLoop_eq (idx2char : List (ℕ × String)) (outputs : Fin 4 → List ℚ) :
    decodeLoop idx2char outputs =
      ("" ++ jsLookupStr idx2char (jsArgmax (outputs 0)).1 ++
          jsLookupStr idx2char (jsArgmax (outputs 1)).1 ++
          jsLookupStr idx2char (jsArgmax (outputs 2)).1 ++
          jsLookupStr idx2char (jsArgmax (outputs 3)).1,
        [(jsArgmax (outputs 0)).2, (jsArgmax (outputs 1)).2,
          (jsArgmax (outputs 2)).2, (jsArgmax (outputs 3)).2]) := rfl

/-- The validity check accepts exactly the candidates of length 4 all of
whose characters are in the charset. -/
theorem isValidCode_iff (validCharacters : List Char) (text : String) :
    isValidCode validCharacters text = true ↔
      (text.length = 4 ∧ ∀ c ∈ text.toList, c ∈ validCharacters) := by
  simp [isValidCode, List.all_eq_true]

/-- The result of a Ready-state `solveCaptcha` call whose preprocessing
and inference both complete: the accepted record on a valid candidate,
the negative record otherwise. -/
theorem solveCaptcha_ok_eval (cfg : EngineConfig) (st : EngineState)
    (env : SolveEnv) (outputs : Fin 4 → List ℚ)
    (hinit : st.isInitialized = true) (hpre : env.preprocessOk = true)
    (hinf : env.infer = InferOutcome.ok outputs) :
    (solveCaptcha cfg st env).1 =
      (if isValidCode cfg.validCharacters (decodeLoop cfg.idx_to_char outputs).1 then
        { code := some (decodeLoop cfg.idx_to_char outputs).1, success := true,
          confidence := (decodeLoop cfg.idx_to_char outputs).2.sum /
            ((decodeLoop cfg.idx_to_char outputs).2.length : ℚ),
          solveTimeMs := some env.time }
      else
        { code := none, success := false, confidence := 0,
          solveTimeMs := some env.time }) := by
  simp only [solveCaptcha, hinit, hpre, hinf, if_true, runInference]
  by_cases hv : isValidCode cfg.validCharacters (decodeLoop cfg.idx_to_char outputs).1
  · simp [hv]
  · simp [hv]

/-- The shared inference block never touches the `isInitialized` flag or
`totalAttempts`, and adds exactly one to `successfulDecodes + failures`. -/
theorem runInference_counters (cfg : EngineConfig) (st : EngineState)
    (inf : InferOutcome) (t : ℚ) :
    (runInference cfg st inf t).2.isInitialized = st.isInitialized ∧
      (runInference cfg st inf t).2.stats.totalAttempts = st.stats.totalAttempts ∧
      (runInference cfg st inf t).2.stats.successfulDecodes +
          (runInference cfg st inf t).2.stats.failures =
        st.stats.successfulDecodes + st.stats.failures + 1 := by
  rcases inf with outputs | _
  · simp only [runInference]
    by_cases hv : isValidCode cfg.validCharacters (decodeLoop cfg.idx_to_char outputs).1
    · simp [hv, recordSuccess, updateTiming]
      omega
    · simp [hv, incFailures, updateTiming]
      omega
  · simp [runInference, incFailures]
    omega

/-- A completed `solveCaptcha` call in the Ready state keeps the flag,
adds one to `totalAttempts` and one to `successfulDecodes + failures`. -/
theorem solveCaptcha_counters (cfg : EngineConfig) (st : EngineState)
    (env : SolveEnv) (hinit : st.isInitialized = true) :
    (solveCaptcha cfg st env).2.isInitialized = true ∧
      (solveCaptcha cfg st env).2.stats.totalAttempts = st.stats.totalAttempts + 1 ∧
      (solveCaptcha cfg st env).2.stats.successfulDecodes +
          (solveCaptcha cfg st env).2.stats.failures =
        st.stats.successfulDecodes + st.stats.failures + 1 := by
  by_cases hp : env.preprocessOk
  · simp only [solveCaptcha, hinit, hp, if_true]
    obtain ⟨h1, h2, h3⟩ :=
      runInference_counters cfg (startAttempt st) env.infer env.time
    refine ⟨by rw [h1]; exact hinit, by rw [h2]; rfl, by rw [h3]; rfl⟩
  · simp [solveCaptcha, hinit, hp, incFailures, startAttempt]
    omega

/-- Before the Ready state, `solveCaptcha` returns the state unchanged. -/
theorem solveCaptcha_uninit (cfg : EngineConfig) (st : EngineState)
    (env : SolveEnv) (hinit : st.isInitialized = false) :
    (solveCaptcha cfg st env).2 = st := by
  simp [solveCaptcha, hinit]

/-- Counter accounting of the batch item tasks: `n` items add `n` to
`totalAttempts` and `n` to `successfulDecodes + failures`. -/
theorem runBatchItems_counters (cfg : EngineConfig) (envs : List SolveEnv) :
    ∀ st : EngineState,
      (runBatchItems cfg st envs).2.isInitialized = st.isInitialized ∧
        (runBatchItems cfg st envs).2.stats.totalAttempts =
          st.stats.totalAttempts + envs.length ∧
        (runBatchItems cfg st envs).2.stats.successfulDecodes +
            (runBatchItems cfg st envs).2.stats.failures =
          st.stats.successfulDecodes + st.stats.failures + envs.length := by
  induction envs with
  | nil => intro st; simp [runBatchItems]
  | cons e es ih =>
    intro st
    obtain ⟨g1, g2, g3⟩ := ih (solveBatchItem cfg st e).2
    obtain ⟨j1, j2, j3⟩ :=
      runInference_counters cfg (startAttempt st) e.infer e.time
    have hitem : solveBatchItem cfg st e =
        runInference cfg (startAttempt st) e.infer e.time := rfl
    rw [hitem] at g1 g2 g3
    simp only [runBatchItems, hitem]
    refine ⟨by rw [g1, j1]; rfl, ?_, ?_⟩
    · rw [g2, j2]
      simp [startAttempt]
      omega
    · rw [g3, j3]
      simp [startAttempt]
      omega

/-- Counter accounting of one completed operation: the flag is preserved;
in the Ready state the attempt deltas are `opAttempts`; before the Ready
state the operation leaves the state unchanged. -/
theorem runOp_counters (cfg : EngineConfig) (st : EngineState) (op : SolverOp) :
    (runOp cfg st op).isInitialized = st.isInitialized ∧
      (st.isInitialized = true →
        (runOp cfg st op).stats.totalAttempts =
            st.stats.totalAttempts + opAttempts op ∧
          (runOp cfg st op).stats.successfulDecodes +
              (runOp cfg st op).stats.failures =
            st.stats.successfulDecodes + st.stats.failures + opAttempts op) ∧
      (st.isInitialized = false → runOp cfg st op = st) := by
  rcases op with env | envs
  · simp only [runOp, opAttempts]
    refine ⟨?_, ?_, ?_⟩
    · by_cases hi : st.isInitialized = true
      · rw [(solveCaptcha_counters cfg st env hi).1, hi]
      · rw [solveCaptcha_uninit cfg st env (by simpa using hi)]
    · intro hi
      exact ⟨(solveCaptcha_counters cfg st env hi).2.1,
        (solveCaptcha_counters cfg st env hi).2.2⟩
    · intro hi
      exact solveCaptcha_uninit cfg st env hi
  · by_cases hi : st.isInitialized = true
    · have hb : runOp cfg st (SolverOp.batch envs) =
          (runBatchItems cfg st (preprocessImages envs)).2 := by
        simp [runOp, solveBatch, hi]
      obtain ⟨g1, g2, g3⟩ := runBatchItems_counters cfg (preprocessImages envs) st
      rw [hb]
      exact ⟨g1, fun _ => ⟨g2, g3⟩, fun h => absurd hi (by simp [h])⟩
    · have hi2 : st.isInitialized = false := by simpa using hi
      have hb : runOp cfg st (SolverOp.batch envs) = st := by
        simp [runOp, solveBatch, hi2]
      rw [hb]
      exact ⟨rfl, fun h => absurd h (by simp [hi2]), fun _ => rfl⟩

/-- One completed operation preserves the counter invariant. -/
theorem runOp_inv (cfg : EngineConfig) (st : EngineState) (op : SolverOp)
    (hinv : st.stats.successfulDecodes + st.stats.failures =
      st.stats.totalAttempts) :
    (runOp cfg st op).stats.successfulDecodes +
        (runOp cfg st op).stats.failures =
      (runOp cfg st op).stats.totalAttempts := by
  obtain ⟨h1, h2, h3⟩ := runOp_counters cfg st op
  by_cases hi : st.isInitialized = true
  · obtain ⟨a, b⟩ := h2 hi
    omega
  · rw [h3 (by simpa using hi)]
    exact hinv

/-- Claim C2 (corrected): at every quiescent observation point — any
state reached from a state satisfying the invariant by a sequence of
COMPLETED `solveCaptcha`/`solveBatch` calls — `successfulDecodes +
failures = totalAttempts` holds; and a sequence of completed operations
adds to `totalAttempts` exactly the number of attempts it starts (one
per Ready-state `solveCaptcha` call, one per batch item surviving
preprocessing).  The invariant does NOT hold at observation points
inside an in-flight call (see `stats_invariant_midflight_cex`), because
`totalAttempts` is incremented before the outcome is recorded. -/
theorem stats_invariant_quiescent (cfg : EngineConfig) (st : EngineState)
    (ops : List SolverOp)
    (hinv : st.stats.successfulDecodes + st.stats.failures =
      st.stats.totalAttempts) :
    (getStats (runOps cfg st ops)).successfulDecodes +
        (getStats (runOps cfg st ops)).failures =
      (getStats (runOps cfg st ops)).totalAttempts ∧
      (st.isInitialized = true →
        (getStats (runOps cfg st ops)).totalAttempts =
          st.stats.totalAttempts + (ops.map opAttempts).sum) := by
  induction ops generalizing st with
  | nil => exact ⟨hinv, fun _ => by simp [runOps, getStats]⟩
  | cons op ops ih =>
    have hstep := runOp_inv cfg st op hinv
    obtain ⟨ihinv, ihtot⟩ := ih (runOp cfg st op) hstep
    refine ⟨by simpa [runOps] using ihinv, fun hi => ?_⟩
    obtain ⟨h1, h2, _⟩ := runOp_counters cfg st op
    have hi2 : (runOp cfg st op).isInitialized = true := by rw [h1]; exact hi
    have htot := ihtot hi2
    have hop := (h2 hi).1
    simp only [runOps, List.map_cons, List.sum_cons]
    rw [htot, hop]
    omega

/-- Confidence accounting of one completed `solveCaptcha` call in the
Ready state: a success increments `successfulDecodes` and folds its own
reported confidence into the running mean (so the mean times the new
count grows by exactly that confidence), while a failure leaves both
untouched. -/
theorem solveCaptcha_keeps_init (cfg : EngineConfig) (st : EngineState)
    (env : SolveEnv) (hinit : st.isInitialized = true) :
    (solveCaptcha cfg st env).2.isInitialized = true :=
  (solveCaptcha_counters cfg st env hinit).1

/-- A successful `solveCaptcha` call increments `successfulDecodes` and
folds its own reported confidence into the running mean: the mean times
the new count grows by exactly that confidence. -/
theorem solveCaptcha_conf_succ (cfg : EngineConfig) (st : EngineState)
    (env : SolveEnv) (hinit : st.isInitialized = true)
    (hs : (solveCaptcha cfg st env).1.success = true) :
    (solveCaptcha cfg st env).2.stats.successfulDecodes =
        st.stats.successfulDecodes + 1 ∧
      (solveCaptcha cfg st env).2.stats.averageConfidence *
          ((st.stats.successfulDecodes : ℚ) + 1) =
        st.stats.averageConfidence * (st.stats.successfulDecodes : ℚ) +
          (solveCaptcha cfg st env).1.confidence := by
  by_cases hp : env.preprocessOk
  · rcases henv : env.infer with outputs | _
    · by_cases hv : isValidCode cfg.validCharacters
          (decodeLoop cfg.idx_to_char outputs).1
      · have hstate : (solveCaptcha cfg st env).2.stats =
            recordSuccess (updateTiming (startAttempt st).stats env.time)
              ((decodeLoop cfg.idx_to_char outputs).2.sum /
                ((decodeLoop cfg.idx_to_char outputs).2.length : ℚ)) := by
          simp [solveCaptcha, hinit, hp, henv, runInference, hv]
        have hconf : (solveCaptcha cfg st env).1.confidence =
            (decodeLoop cfg.idx_to_char outputs).2.sum /
              ((decodeLoop cfg.idx_to_char outputs).2.length : ℚ) := by
          simp [solveCaptcha, hinit, hp, henv, runInference, hv]
        rw [hstate, hconf]
        constructor
        · simp [recordSuccess, updateTiming, startAttempt]
        · simp only [recordSuccess, updateTiming, startAttempt]
          have hne : ((st.stats.successfulDecodes : ℚ) + 1) ≠ 0 := by positivity
          push_cast
          rw [div_mul_cancel₀ _ hne]
          ring
      · exfalso
        have : (solveCaptcha cfg st env).1.success = false := by
          simp [solveCaptcha, hinit, hp, henv, runInference, hv]
        rw [hs] at this
        cases this
    · exfalso
      have : (solveCaptcha cfg st env).1.success = false := by
        simp [solveCaptcha, hinit, hp, henv, runInference]
      rw [hs] at this
      cases this
  · exfalso
    have : (solveCaptcha cfg st env).1.success = false := by
      simp [solveCaptcha, hinit, hp]
    rw [hs] at this
    cases this

/-- A failed `solveCaptcha` call leaves `successfulDecodes` and
`averageConfidence` untouched. -/
theorem solveCaptcha_conf_fail (cfg : EngineConfig) (st : EngineState)
    (env : SolveEnv) (hinit : st.isInitialized = true)
    (hs : ¬ (solveCaptcha cfg st env).1.success = true) :
    (solveCaptcha cfg st env).2.stats.successfulDecodes =
        st.stats.successfulDecodes ∧
      (solveCaptcha cfg st env).2.stats.averageConfidence =
        st.stats.averageConfidence := by
  by_cases hp : env.preprocessOk
  · rcases henv : env.infer with outputs | _
    · by_cases hv : isValidCode cfg.validCharacters
          (decodeLoop cfg.idx_to_char outputs).1
      · exfalso
        exact hs (by simp [solveCaptcha, hinit, hp, henv, runInference, hv])
      · constructor <;>
          simp [solveCaptcha, hinit, hp, henv, runInference, hv, incFailures,
            updateTiming, startAttempt]
    · constructor <;>
        simp [solveCaptcha, hinit, hp, henv, runInference, incFailures,
          startAttempt]
  · constructor <;> simp [solveCaptcha, hinit, hp, incFailures, startAttempt]

/-- Confidence accounting of a completed sequence of `solveCaptcha`
calls: the number of successes adds to `successfulDecodes`, and the
running mean times the final count grows by the sum of the successful
confidences. -/
theorem runSolves_conf (cfg : EngineConfig) (envs : List SolveEnv) :
    ∀ st : EngineState, st.isInitialized = true →
      (runSolves cfg st envs).2.isInitialized = true ∧
        (runSolves cfg st envs).2.stats.successfulDecodes =
          st.stats.successfulDecodes +
            ((runSolves cfg st envs).1.filter (fun r => r.success)).length ∧
        (runSolves cfg st envs).2.stats.averageConfidence *
            ((runSolves cfg st envs).2.stats.successfulDecodes : ℚ) =
          st.stats.averageConfidence * (st.stats.successfulDecodes : ℚ) +
            (((runSolves cfg st envs).1.filter (fun r => r.success)).map
              (fun r => r.confidence)).sum := by
  induction envs with
  | nil =>
    intro st h
    exact ⟨h, by simp [runSolves], by simp [runSolves]⟩
  | cons e es ih =>
    intro st hinit
    have s1 := solveCaptcha_keeps_init cfg st e hinit
    obtain ⟨g1, g2, g3⟩ := ih (solveCaptcha cfg st e).2 s1
    simp only [runSolves]
    by_cases hs : (solveCaptcha cfg st e).1.success = true
    · obtain ⟨a1, a2⟩ := solveCaptcha_conf_succ cfg st e hinit hs
      refine ⟨g1, ?_, ?_⟩
      · simp only [List.filter_cons, hs, if_true, List.length_cons]
        rw [g2, a1]
        omega
      · simp only [List.filter_cons, hs, if_true, List.map_cons, List.sum_cons]
        rw [g3, a1]
        push_cast
        rw [a2]
        ring
    · obtain ⟨a1, a2⟩ := solveCaptcha_conf_fail cfg st e hinit hs
      have hs2 : (solveCaptcha cfg st e).1.success = false := by
        simpa using hs
      refine ⟨g1, ?_, ?_⟩
      · simp only [List.filter_cons, hs2]
        rw [g2, a1]
        simp
      · simp only [List.filter_cons, hs2]
        rw [g3, a1, a2]
        simp

/-- Claim C7 (confirmed): starting from the fresh Ready state, after any
completed sequence of solve attempts `successfulDecodes` equals the
number of successful results, and whenever there has been at least one
success, `averageConfidence` equals the arithmetic mean of exactly the
confidences reported by the successful results — failures never change
it. -/
theorem avg_confidence_mean (cfg : EngineConfig) (envs : List SolveEnv) :
    (getStats (runSolves cfg freshReady envs).2).successfulDecodes =
        ((runSolves cfg freshReady envs).1.filter (fun r => r.success)).length ∧
      (0 < ((runSolves cfg freshReady envs).1.filter
          (fun r => r.success)).length →
        (getStats (runSolves cfg freshReady envs).2).averageConfidence =
          (((runSolves cfg freshReady envs).1.filter (fun r => r.success)).map
              (fun r => r.confidence)).sum /
            (((runSolves cfg freshReady envs).1.filter
              (fun r => r.success)).length : ℚ)) := by
  obtain ⟨g1, g2, g3⟩ := runSolves_conf cfg envs freshReady rfl
  have h0 : freshReady.stats.successfulDecodes = 0 := rfl
  have h0c : freshReady.stats.averageConfidence = 0 := rfl
  rw [h0] at g2
  rw [h0, h0c] at g3
  simp only [Nat.zero_add, Nat.cast_zero, mul_zero, zero_add] at g2 g3
  refine ⟨g2, fun hpos => ?_⟩
  have hne : ((((runSolves cfg freshReady envs).1.filter
      (fun r => r.success)).length : ℚ)) ≠ 0 := by
    exact_mod_cast Nat.pos_iff_ne_zero.mp hpos
  rw [eq_div_iff hne]
  rw [getStats, ← g3, g2]

/-- Claim C3 (corrected): only attempts that complete inference update
the timing aggregates.  In the Ready state, an attempt that fails
preprocessing or raises an inference exception increments `failures` and
returns its elapsed time, but leaves `averageSolveTimeMs`,
`minSolveTimeMs` and `maxSolveTimeMs` unchanged; an attempt that reaches
the decode stage (whether validation succeeds or not) updates all three
with the elapsed time of that attempt. -/
theorem timing_update_paths (cfg : EngineConfig) (st : EngineState)
    (env : SolveEnv) (hinit : st.isInitialized = true) :
    ((env.preprocessOk = false ∨ env.infer = InferOutcome.raise) →
      (solveCaptcha cfg st env).2.stats.averageSolveTimeMs =
          st.stats.averageSolveTimeMs ∧
        (solveCaptcha cfg st env).2.stats.minSolveTimeMs =
          st.stats.minSolveTimeMs ∧
        (solveCaptcha cfg st env).2.stats.maxSolveTimeMs =
          st.stats.maxSolveTimeMs ∧
        (solveCaptcha cfg st env).2.stats.failures = st.stats.failures + 1 ∧
        (solveCaptcha cfg st env).1.solveTimeMs = some env.time) ∧
      (∀ outputs, env.preprocessOk = true →
        env.infer = InferOutcome.ok outputs →
        (solveCaptcha cfg st env).2.stats.averageSolveTimeMs =
            (st.stats.averageSolveTimeMs * (st.stats.totalAttempts : ℚ) +
                env.time) /
              ((st.stats.totalAttempts : ℚ) + 1) ∧
          (solveCaptcha cfg st env).2.stats.minSolveTimeMs =
            min st.stats.minSolveTimeMs (env.time : WithTop ℚ) ∧
          (solveCaptcha cfg st env).2.stats.maxSolveTimeMs =
            max st.stats.maxSolveTimeMs env.time) := by
  constructor
  · rintro (hp | hr)
    · refine ⟨?_, ?_, ?_, ?_, ?_⟩ <;>
        simp [solveCaptcha, hinit, hp, incFailures, startAttempt]
    · by_cases hp : env.preprocessOk
      · refine ⟨?_, ?_, ?_, ?_, ?_⟩ <;>
          simp [solveCaptcha, hinit, hp, hr, runInference, incFailures,
            startAttempt]
      · refine ⟨?_, ?_, ?_, ?_, ?_⟩ <;>
          simp [solveCaptcha, hinit, hp, incFailures, startAttempt]
  · intro outputs hp hr
    have hfields :
        (solveCaptcha cfg st env).2.stats.averageSolveTimeMs =
            (updateTiming (startAttempt st).stats env.time).averageSolveTimeMs ∧
          (solveCaptcha cfg st env).2.stats.minSolveTimeMs =
            (updateTiming (startAttempt st).stats env.time).minSolveTimeMs ∧
          (solveCaptcha cfg st env).2.stats.maxSolveTimeMs =
            (updateTiming (startAttempt st).stats env.time).maxSolveTimeMs := by
      by_cases hv : isValidCode cfg.validCharacters
          (decodeLoop cfg.idx_to_char outputs).1
      · refine ⟨?_, ?_, ?_⟩ <;>
          simp [solveCaptcha, hinit, hp, hr, runInference, hv, recordSuccess]
      · refine ⟨?_, ?_, ?_⟩ <;>
          simp [solveCaptcha, hinit, hp, hr, runInference, hv, incFailures]
    obtain ⟨hA2, hm2, hM2⟩ := hfields
    refine ⟨?_, ?_, ?_⟩
    · rw [hA2]
      simp only [updateTiming, startAttempt]
      push_cast
      ring_nf
    · rw [hm2]
      rfl
    · rw [hM2]
      rfl

/-- One inference-completing `solveCaptcha` call in the Ready state
establishes (from a fresh stats record) or preserves the timing ordering
`min ≤ mean ≤ max`, and increments `totalAttempts`. -/
theorem solveCaptcha_timing_inv_step (cfg : EngineConfig) (st : EngineState)
    (env : SolveEnv) (outputs : Fin 4 → List ℚ)
    (hinit : st.isInitialized = true) (hpre : env.preprocessOk = true)
    (hinf : env.infer = InferOutcome.ok outputs)
    (h : st.stats.totalAttempts = 0 ∨ timingInv st.stats) :
    timingInv (solveCaptcha cfg st env).2.stats := by
  obtain ⟨hA, hm, hM⟩ :=
    (timing_update_paths cfg st env hinit).2 outputs hpre hinf
  rcases h with h0 | ⟨hmin, hmax⟩
  · have hAv : (solveCaptcha cfg st env).2.stats.averageSolveTimeMs =
        env.time := by
      rw [hA, h0]
      push_cast
      ring_nf
    constructor
    · rw [hm, hAv]
      exact min_le_right _ _
    · rw [hM, hAv]
      exact le_max_right _ _
  · obtain ⟨mv, hmv, hmvle⟩ := WithTop.le_coe_iff.mp hmin
    have hnpos : (0 : ℚ) < (st.stats.totalAttempts : ℚ) + 1 := by positivity
    have hnn : (0 : ℚ) ≤ (st.stats.totalAttempts : ℚ) := Nat.cast_nonneg _
    constructor
    · rw [hm, hA, hmv, ← WithTop.coe_min, WithTop.coe_le_coe]
      rw [le_div_iff₀ hnpos]
      have h1 : min mv env.time ≤ st.stats.averageSolveTimeMs :=
        le_trans (min_le_left _ _) hmvle
      have h2 : min mv env.time ≤ env.time := min_le_right _ _
      nlinarith [mul_le_mul_of_nonneg_right h1 hnn]
    · rw [hM, hA]
      rw [div_le_iff₀ hnpos]
      have h1 : st.stats.averageSolveTimeMs ≤ max st.stats.maxSolveTimeMs env.time :=
        le_trans hmax (le_max_left _ _)
      have h2 : env.time ≤ max st.stats.maxSolveTimeMs env.time := le_max_right _ _
      nlinarith [mul_le_mul_of_nonneg_right h1 hnn]

/-- The timing ordering propagates along any completed sequence of
inference-completing `solveCaptcha` calls. -/
theorem runSolves_timing_inv (cfg : EngineConfig) (envs : List SolveEnv)
    (hall : ∀ e ∈ envs, e.preprocessOk = true ∧
      ∃ o, e.infer = InferOutcome.ok o) :
    ∀ st : EngineState, st.isInitialized = true →
      (st.stats.totalAttempts = 0 ∨ timingInv st.stats) →
      ((runSolves cfg st envs).2.isInitialized = true ∧
        ((runSolves cfg st envs).2.stats.totalAttempts = 0 ∨
          timingInv (runSolves cfg st envs).2.stats)) := by
  induction envs with
  | nil => intro st h1 h2; exact ⟨h1, h2⟩
  | cons e es ih =>
    intro st h1 h2
    obtain ⟨hpre, o, hinf⟩ := hall e (List.mem_cons_self e es)
    have hstep := solveCaptcha_timing_inv_step cfg st e o h1 hpre hinf h2
    have hinit2 := solveCaptcha_keeps_init cfg st e h1
    have hrest := ih (fun x hx => hall x (List.mem_cons_of_mem e hx))
      (solveCaptcha cfg st e).2 hinit2 (Or.inr hstep)
    exact hrest

/-- Claim C4 (corrected): along any completed sequence of `solveCaptcha`
calls in which every attempt completed inference (none failed
preprocessing or raised an exception), once `totalAttempts > 0` the
statistics satisfy `minSolveTimeMs ≤ averageSolveTimeMs ≤
maxSolveTimeMs`.  Without that restriction the ordering fails (see
`timing_order_cex`), because `totalAttempts` also counts attempts that
contributed no time. -/
theorem timing_bounds_inference_only (cfg : EngineConfig)
    (envs : List SolveEnv)
    (hall : ∀ e ∈ envs, e.preprocessOk = true ∧
      ∃ o, e.infer = InferOutcome.ok o)
    (hpos : 0 < (getStats (runSolves cfg freshReady envs).2).totalAttempts) :
    (getStats (runSolves cfg freshReady envs).2).minSolveTimeMs ≤
        ((getStats (runSolves cfg freshReady envs).2).averageSolveTimeMs :
          WithTop ℚ) ∧
      (getStats (runSolves cfg freshReady envs).2).averageSolveTimeMs ≤
        (getStats (runSolves cfg freshReady envs).2).maxSolveTimeMs := by
  obtain ⟨_, h⟩ := runSolves_timing_inv cfg envs hall freshReady rfl (Or.inl rfl)
  rcases h with h | h
  · exfalso
    rw [getStats] at hpos
    omega
  · exact h

/-- Claim C5 (corrected): what the current `initialize` records.  It
always sets `availableProviders` to the requested list (not to what the
environment reports); when acceleration is requested and session
construction succeeds, the recorded provider is the platform's first
requested entry ("dml" on Windows, "cuda" otherwise) regardless of what
the environment actually has, and otherwise it is "cpu"; `available` is
true exactly when the recorded provider belongs to the accelerated set
`{cuda, dml, tensorrt, rocm}` — which here means exactly when
construction with the GPU list succeeded. -/
theorem gpu_status_code_behavior (env : InitEnv) :
    (initGpuStatus env).availableProviders =
        (initGpuStatus env).requestedProviders ∧
      ((initGpuStatus env).available = true ↔
        ∃ p, (initGpuStatus env).provider = some p ∧ p ∈ gpuProviders) ∧
      (initGpuStatus env).provider =
        some (if env.useGpu && env.gpuSessionOk then
            (if env.isWin32 then "dml" else "cuda")
          else "cpu") := by
  rcases env with ⟨u, w, g, ps⟩
  cases u <;> cases w <;> cases g <;>
    simp [initGpuStatus, requestedProvidersFor, gpuProviders]

/-- Claim C6 (corrected): whenever a Ready-state `solveCaptcha` call
returns `success = true`, the returned code is a 4-character string all
of whose characters are in the declared charset; and PROVIDED every
per-position model score lies in [0,1] (the code itself never clamps
them — see `confidence_range_cex`), the returned confidence lies in
[0,1]. -/
theorem success_result_wellformed (cfg : EngineConfig) (st : EngineState)
    (env : SolveEnv) (outputs : Fin 4 → List ℚ)
    (hinit : st.isInitialized = true)
    (hinf : env.infer = InferOutcome.ok outputs)
    (hne : ∀ pos : Fin 4, outputs pos ≠ [])
    (hscores : ∀ pos : Fin 4, ∀ q ∈ outputs pos, 0 ≤ q ∧ q ≤ 1)
    (hsucc : (solveCaptcha cfg st env).1.success = true) :
    ∃ text, (solveCaptcha cfg st env).1.code = some text ∧
      text.length = 4 ∧ (∀ c ∈ text.toList, c ∈ cfg.validCharacters) ∧
      0 ≤ (solveCaptcha cfg st env).1.confidence ∧
      (solveCaptcha cfg st env).1.confidence ≤ 1 := by
  by_cases hp : env.preprocessOk
  · by_cases hv : isValidCode cfg.validCharacters
        (decodeLoop cfg.idx_to_char outputs).1
    · have hres := solveCaptcha_ok_eval cfg st env outputs hinit hp hinf
      obtain ⟨hlen, hchars⟩ := (isValidCode_iff cfg.validCharacters _).mp hv
      have hconf : (solveCaptcha cfg st env).1.confidence =
          (decodeLoop cfg.idx_to_char outputs).2.sum /
            ((decodeLoop cfg.idx_to_char outputs).2.length : ℚ) := by
        rw [hres, if_pos hv]
      have hsum : (decodeLoop cfg.idx_to_char outputs).2 =
          [(jsArgmax (outputs 0)).2, (jsArgmax (outputs 1)).2,
            (jsArgmax (outputs 2)).2, (jsArgmax (outputs 3)).2] := by
        rw [decodeLoop_eq]
      have hb : ∀ pos : Fin 4, 0 ≤ (jsArgmax (outputs pos)).2 ∧
          (jsArgmax (outputs pos)).2 ≤ 1 :=
        fun pos => hscores pos _ (jsArgmax_mem (outputs pos) (hne pos))
      obtain ⟨b0, c0⟩ := hb 0
      obtain ⟨b1, c1⟩ := hb 1
      obtain ⟨b2, c2⟩ := hb 2
      obtain ⟨b3, c3⟩ := hb 3
      refine ⟨(decodeLoop cfg.idx_to_char outputs).1, ?_, hlen, hchars, ?_, ?_⟩
      · rw [hres, if_pos hv]
      · rw [hconf, hsum]
        simp only [List.sum_cons, List.sum_nil, List.length_cons,
          List.length_nil]
        refine div_nonneg (by linarith) (by positivity)
      · rw [hconf, hsum]
        simp only [List.sum_cons, List.sum_nil, List.length_cons,
          List.length_nil]
        rw [div_le_one (by positivity)]
        push_cast
        linarith
    · exfalso
      have : (solveCaptcha cfg st env).1.success = false := by
        simp [solveCaptcha, hinit, hp, hinf, runInference, hv]
      rw [hsucc] at this
      cases this
  · exfalso
    have : (solveCaptcha cfg st env).1.success = false := by
      simp [solveCaptcha, hinit, hp]
    rw [hsucc] at this
    cases this

/-- Claim C9 (confirmed): in the Ready state, with preprocessing done and
inference returning non-empty score vectors, each of the 4 positions
selects the maximum score at its first occurrence (every earlier entry
is strictly smaller), the candidate code is the concatenation of the 4
characters obtained through `idx_to_char`, the confidence is the
arithmetic mean of the 4 selected maxima, the candidate is accepted iff
its length is 4 and all of its characters are in the charset, and an
unaccepted candidate yields `success = false`, `code = null`,
`confidence = 0`. -/
theorem decoder_spec (cfg : EngineConfig) (st : EngineState) (env : SolveEnv)
    (outputs : Fin 4 → List ℚ)
    (hinit : st.isInitialized = true) (hpre : env.preprocessOk = true)
    (hinf : env.infer = InferOutcome.ok outputs)
    (hne : ∀ pos : Fin 4, outputs pos ≠ []) :
    (∀ pos : Fin 4,
        (jsArgmax (outputs pos)).1 < (outputs pos).length ∧
          (outputs pos).getD (jsArgmax (outputs pos)).1 0 = (jsArgmax (outputs pos)).2 ∧
          (∀ q ∈ outputs pos, q ≤ (jsArgmax (outputs pos)).2) ∧
          (∀ j, j < (jsArgmax (outputs pos)).1 →
            (outputs pos).getD j 0 < (jsArgmax (outputs pos)).2)) ∧
      (decodeLoop cfg.idx_to_char outputs).1 =
        jsLookupStr cfg.idx_to_char (jsArgmax (outputs 0)).1 ++
          jsLookupStr cfg.idx_to_char (jsArgmax (outputs 1)).1 ++
          jsLookupStr cfg.idx_to_char (jsArgmax (outputs 2)).1 ++
          jsLookupStr cfg.idx_to_char (jsArgmax (outputs 3)).1 ∧
      (decodeLoop cfg.idx_to_char outputs).2.sum /
          ((decodeLoop cfg.idx_to_char outputs).2.length : ℚ) =
        ((jsArgmax (outputs 0)).2 + (jsArgmax (outputs 1)).2 +
            (jsArgmax (outputs 2)).2 + (jsArgmax (outputs 3)).2) / 4 ∧
      (isValidCode cfg.validCharacters (decodeLoop cfg.idx_to_char outputs).1 = true ↔
        ((decodeLoop cfg.idx_to_char outputs).1.length = 4 ∧
          ∀ c ∈ (decodeLoop cfg.idx_to_char outputs).1.toList,
            c ∈ cfg.validCharacters)) ∧
      (solveCaptcha cfg st env).1 =
        (if isValidCode cfg.validCharacters (decodeLoop cfg.idx_to_char outputs).1 then
          { code := some (decodeLoop cfg.idx_to_char outputs).1, success := true,
            confidence := (decodeLoop cfg.idx_to_char outputs).2.sum /
              ((decodeLoop cfg.idx_to_char outputs).2.length : ℚ),
            solveTimeMs := some env.time }
        else
          { code := none, success := false, confidence := 0,
            solveTimeMs := some env.time }) := by
  refine ⟨fun pos => jsArgmax_spec (outputs pos) (hne pos), ?_, ?_, ?_, ?_⟩
  · rw [decodeLoop_eq]
    simp [String.empty_append]
  · rw [decodeLoop_eq]
    norm_num [List.sum_cons, List.sum_nil]
    ring_nf
  · simp [isValidCode, List.all_eq_true]
  · simp only [solveCaptcha, hinit, hpre, hinf, if_true, runInference]
    by_cases hv : isValidCode cfg.validCharacters (decodeLoop cfg.idx_to_char outputs).1
    · simp [hv]
    · simp [hv]

/-- Claim C8 (confirmed): any solve attempt made after the Ready state is
reached either succeeds or returns exactly `{success: false, code: null,
confidence: 0}` (with the observed elapsed time) while incrementing the
`failures` counter; this covers preprocessing failures, inference
exceptions and validation failures, and the solve function is total —
no failure mode escapes as an exception. -/
theorem solve_error_containment (cfg : EngineConfig) (st : EngineState)
    (env : SolveEnv) (hinit : st.isInitialized = true) :
    (solveCaptcha cfg st env).1.success = true ∨
      ((solveCaptcha cfg st env).1 =
          { code := none, success := false, confidence := 0,
            solveTimeMs := some env.time } ∧
        (solveCaptcha cfg st env).2.stats.failures = st.stats.failures + 1) := by
  by_cases hp : env.preprocessOk
  · rcases henv : env.infer with outputs | _
    · simp only [solveCaptcha, hinit, hp, henv, if_true, runInference]
      by_cases hv : isValidCode cfg.validCharacters
          (decodeLoop cfg.idx_to_char outputs).1
      · left
        simp [hv]
      · right
        simp [hv, incFailures, updateTiming, startAttempt]
    · right
      simp [solveCaptcha, hinit, hp, henv, runInference, incFailures, startAttempt]
  · right
    simp [solveCaptcha, hinit, hp, incFailures, startAttempt]

/-- Claim C1 (code bug): in the Ready state, a batch of two images whose
first image fails preprocessing returns a result list of length 1, not
2: `preprocessImages` silently drops the failed item, so the surviving
single result is the success of the SECOND image, shifted to position 0
(where the real code also pairs it with the first image's id).  The
claimed length preservation and 1:1 positional correspondence fail. -/
theorem batch_drops_failed_item :
    ((solveBatch cfg0 freshReady [envPre, envOk]).1).length = 1 ∧
      ([envPre, envOk].length = 2) ∧
      ((solveBatch cfg0 freshReady [envPre, envOk]).1.map
          (fun r => (r.code, r.success))) = [(some "aaaa", true)] := by
  refine ⟨by decide, rfl, by decide⟩

/-- Claim C2, counterexample: the state reached inside an in-flight
`solveCaptcha` call right after `this.stats.totalAttempts++` (the state
`getStats` observes while the call is suspended at the preprocessing or
inference `await`) violates `successfulDecodes + failures ==
totalAttempts`: starting from a fresh Ready engine it shows 0 + 0 ≠ 1. -/
theorem stats_invariant_midflight_cex :
    (getStats (startAttempt freshReady)).successfulDecodes +
        (getStats (startAttempt freshReady)).failures ≠
      (getStats (startAttempt freshReady)).totalAttempts := by
  decide

/-- Claim C3, counterexample: an attempt that fails preprocessing after
an observed elapsed time of 5 ms is counted in `totalAttempts` and
returns `solveTimeMs = 5`, yet leaves `averageSolveTimeMs`,
`minSolveTimeMs` and `maxSolveTimeMs` at their initial values — in
particular `minSolveTimeMs` stays `Infinity` instead of becoming 5. -/
theorem timing_skip_on_preprocess_fail_cex :
    (solveCaptcha cfg0 freshReady envPre5).1.solveTimeMs = some 5 ∧
      (solveCaptcha cfg0 freshReady envPre5).2.stats.totalAttempts = 1 ∧
      (solveCaptcha cfg0 freshReady envPre5).2.stats.minSolveTimeMs = ⊤ ∧
      (solveCaptcha cfg0 freshReady envPre5).2.stats.averageSolveTimeMs = 0 ∧
      (solveCaptcha cfg0 freshReady envPre5).2.stats.maxSolveTimeMs = 0 ∧
      (solveCaptcha cfg0 freshReady envPre5).2.stats.minSolveTimeMs ≠
        ((5 : ℚ) : WithTop ℚ) := by
  refine ⟨?_, ?_, ?_, ?_, ?_, ?_⟩ <;> decide

/-- Claim C4, counterexample: after an attempt that fails preprocessing
followed by an attempt that completes inference in 10 ms, the stats show
`totalAttempts = 2 > 0` but `minSolveTimeMs = 10 > averageSolveTimeMs =
5`: the running mean divides by `totalAttempts`, which also counts the
attempt that never contributed a time. -/
theorem timing_order_cex :
    0 < (solveCaptcha cfg0 (solveCaptcha cfg0 freshReady envPre5).2
          envOk10).2.stats.totalAttempts ∧
      ¬ ((solveCaptcha cfg0 (solveCaptcha cfg0 freshReady envPre5).2
            envOk10).2.stats.minSolveTimeMs ≤
          (((solveCaptcha cfg0 (solveCaptcha cfg0 freshReady envPre5).2
              envOk10).2.stats.averageSolveTimeMs : ℚ) : WithTop ℚ)) := by
  constructor
  · decide
  · have havg : (solveCaptcha cfg0 (solveCaptcha cfg0 freshReady envPre5).2
          envOk10).2.stats.averageSolveTimeMs =
        ((0 : ℚ) * (((2 : ℕ) : ℚ) - 1) + 10) / ((2 : ℕ) : ℚ) := rfl
    have hmin : (solveCaptcha cfg0 (solveCaptcha cfg0 freshReady envPre5).2
          envOk10).2.stats.minSolveTimeMs =
        min (⊤ : WithTop ℚ) ((10 : ℚ) : WithTop ℚ) := rfl
    rw [havg, hmin, min_eq_right le_top]
    simp only [WithTop.coe_le_coe]
    norm_num

/-- Claim C5, counterexample: with GPU requested on Linux, session
construction succeeding, and an environment that actually has only the
CPU provider, the code records provider "cuda", `available = true` and
`availableProviders = ["cuda", "cpu"]` (the requested list), while the
claimed rule yields provider "cpu", `available = false` and
`availableProviders = ["cpu"]` (the environment's report): the code
classifies acceleration as available merely because construction
succeeded. -/
theorem gpu_status_cex :
    (initGpuStatus envGpu).provider = some "cuda" ∧
      (initGpuStatus envGpu).available = true ∧
      (initGpuStatus envGpu).availableProviders = ["cuda", "cpu"] ∧
      (specGpuStatus envGpu).provider = some "cpu" ∧
      (specGpuStatus envGpu).available = false ∧
      (specGpuStatus envGpu).availableProviders = ["cpu"] := by
  refine ⟨?_, ?_, ?_, ?_, ?_, ?_⟩ <;> decide

/-- Claim C6, counterexample: nothing constrains the model's output
scores to [0,1].  With a score of 2 at every position the decode
validates (the code "aaaa" is in the charset), so the call succeeds with
confidence 2, outside the claimed interval. -/
theorem confidence_range_cex :
    (solveCaptcha cfg0 freshReady envBig).1.success = true ∧
      ¬ ((solveCaptcha cfg0 freshReady envBig).1.confidence ≤ 1) := by
  constructor
  · decide
  · have h : (solveCaptcha cfg0 freshReady envBig).1.confidence =
        ([2, 2, 2, 2] : List ℚ).sum / ((([2, 2, 2, 2] : List ℚ).length : ℕ) : ℚ) := rfl
    rw [h]
    norm_num

/-- Claim C10 (code bug): before initialization, `solveCaptcha` returns
the claimed `{success: false, code: null, confidence: 0, solveTimeMs:
0}` and leaves the state untouched, and `solveBatch` returns one failure
result per input item with the state untouched — but those batch result
objects are built WITHOUT a `solveTimeMs` field (`none` here, `undefined`
in JavaScript, violating the declared `SolveResult` interface), not with
`solveTimeMs: 0` as claimed. -/
theorem preinit_paths_eval :
    (solveCaptcha cfg0 uninit envOk).1 =
        { code := none, success := false, confidence := 0, solveTimeMs := some 0 } ∧
      (solveCaptcha cfg0 uninit envOk).2 = uninit ∧
      (solveBatch cfg0 uninit [envOk, envPre]).1 =
        [{ code := none, success := false, confidence := 0, solveTimeMs := none },
          { code := none, success := false, confidence := 0, solveTimeMs := none }] ∧
      (solveBatch cfg0 uninit [envOk, envPre]).2 = uninit ∧
      (solveBatch cfg0 uninit [envOk, envPre]).1 ≠
        [{ code := none, success := false, confidence := 0, solveTimeMs := some 0 },
          { code := none, success := false, confidence := 0, solveTimeMs := some 0 }] := by
  refine ⟨?_, ?_, ?_, ?_, ?_⟩ <;> decide

/-! ## Witnesses: the hypothesis-bearing theorems applied at concrete inputs -/

/-- `stats_invariant_quiescent` at a fresh Ready engine running one
success, one preprocessing failure, and a batch: the invariant holds
afterwards and `totalAttempts` grew by the number of started attempts. -/
theorem stats_invariant_quiescent_witness :
    (getStats (runOps cfg0 freshReady
          [SolverOp.single envOk, SolverOp.single envPre,
            SolverOp.batch [envPre, envOk]])).successfulDecodes +
        (getStats (runOps cfg0 freshReady
          [SolverOp.single envOk, SolverOp.single envPre,
            SolverOp.batch [envPre, envOk]])).failures =
      (getStats (runOps cfg0 freshReady
          [SolverOp.single envOk, SolverOp.single envPre,
            SolverOp.batch [envPre, envOk]])).totalAttempts ∧
      (freshReady.isInitialized = true →
        (getStats (runOps cfg0 freshReady
            [SolverOp.single envOk, SolverOp.single envPre,
              SolverOp.batch [envPre, envOk]])).totalAttempts =
          freshReady.stats.totalAttempts +
            ([SolverOp.single envOk, SolverOp.single envPre,
              SolverOp.batch [envPre, envOk]].map opAttempts).sum) :=
  stats_invariant_quiescent cfg0 freshReady
    [SolverOp.single envOk, SolverOp.single envPre,
      SolverOp.batch [envPre, envOk]] (by decide)

/-- `timing_update_paths` at a preprocessing failure: the timing
aggregates are untouched. -/
theorem timing_update_paths_witness :
    (solveCaptcha cfg0 freshReady envPre5).2.stats.minSolveTimeMs =
      freshReady.stats.minSolveTimeMs :=
  ((timing_update_paths cfg0 freshReady envPre5 rfl).1 (Or.inl rfl)).2.1

/-- `timing_bounds_inference_only` on a single inference-completing
attempt. -/
theorem timing_bounds_inference_only_witness :
    (getStats (runSolves cfg0 freshReady [envOk10]).2).minSolveTimeMs ≤
        ((getStats (runSolves cfg0 freshReady [envOk10]).2).averageSolveTimeMs :
          WithTop ℚ) ∧
      (getStats (runSolves cfg0 freshReady [envOk10]).2).averageSolveTimeMs ≤
        (getStats (runSolves cfg0 freshReady [envOk10]).2).maxSolveTimeMs :=
  timing_bounds_inference_only cfg0 [envOk10]
    (by
      intro e he
      rw [List.mem_singleton] at he
      subst he
      exact ⟨rfl, out1, rfl⟩)
    (by decide)

/-- `avg_confidence_mean` after success, failure, success: the running
mean equals the mean of the successful confidences. -/
theorem avg_confidence_mean_witness :
    (getStats (runSolves cfg0 freshReady [envOk, envPre, envOk]).2).averageConfidence =
      (((runSolves cfg0 freshReady [envOk, envPre, envOk]).1.filter
          (fun r => r.success)).map (fun r => r.confidence)).sum /
        ((((runSolves cfg0 freshReady [envOk, envPre, envOk]).1.filter
          (fun r => r.success)).length : ℕ) : ℚ) :=
  (avg_confidence_mean cfg0 [envOk, envPre, envOk]).2 (by decide)

/-- `success_result_wellformed` on in-range scores. -/
theorem success_result_wellformed_witness :
    ∃ text, (solveCaptcha cfg0 freshReady envOk).1.code = some text ∧
      text.length = 4 ∧ (∀ c ∈ text.toList, c ∈ cfg0.validCharacters) ∧
      0 ≤ (solveCaptcha cfg0 freshReady envOk).1.confidence ∧
      (solveCaptcha cfg0 freshReady envOk).1.confidence ≤ 1 :=
  success_result_wellformed cfg0 freshReady envOk out1 rfl rfl (by decide)
    (by decide) (by decide)

/-- `decoder_spec` on the one-class fixture: the decoded text is the
concatenation of the four looked-up characters. -/
theorem decoder_spec_witness :
    (decodeLoop cfg0.idx_to_char out1).1 =
      jsLookupStr cfg0.idx_to_char (jsArgmax (out1 0)).1 ++
        jsLookupStr cfg0.idx_to_char (jsArgmax (out1 1)).1 ++
        jsLookupStr cfg0.idx_to_char (jsArgmax (out1 2)).1 ++
        jsLookupStr cfg0.idx_to_char (jsArgmax (out1 3)).1 :=
  (decoder_spec cfg0 freshReady envOk out1 rfl rfl rfl (by decide)).2.1

/-- `solve_error_containment` on a preprocessing failure. -/
theorem solve_error_containment_witness :
    (solveCaptcha cfg0 freshReady envPre).1.success = true ∨
      ((solveCaptcha cfg0 freshReady envPre).1 =
          { code := none, success := false, confidence := 0,
            solveTimeMs := some envPre.time } ∧
        (solveCaptcha cfg0 freshReady envPre).2.stats.failures =
          freshReady.stats.failures + 1) :=
  solve_error_containment cfg0 freshReady envPre rfl

end CaptchaApi
